import Mathlib

/-!
Verification of the Agent Run lifecycle of the BeeAI / ACP repository.

The run state machine is embedded from the `stateDiagram-v2` mermaid diagram
and the surrounding prose of the "Agent Run" documentation page
(src/unnamed/part_001).  The RunController / RunStore / ExpirationManager
behaviour has no source under src/, so those operations are modelled from
the specification; their doc comments say so explicitly.
-/

namespace BeeAI

/-- The run lifecycle states, from the mermaid state diagram in
src/unnamed/part_001: `created, in-progress, awaiting, completed,
cancelling, cancelled, failed`. -/
inductive RunState
  | created
  | inProgress
  | awaiting
  | completed
  | cancelling
  | cancelled
  | failed
  deriving DecidableEq, Repr, Fintype

/-- The events labelling the edges of the state diagram, plus the
`continue` event described in the prose ("the run could be continued, in
which case it may return to the in-progress state from one of the terminal
states"). -/
inductive RunEvent
  | start
  | complete
  | needInput
  | cancelRequest
  | error
  | inputReceived
  | timeoutOrError
  | cancelConfirmed
  | continueRun
  deriving DecidableEq, Repr, Fintype

/-- Error taxonomy of the run lifecycle (spec section 7). -/
inductive RunError
  | invalidTransition
  | notFound
  | expired
  | runNotResumable
  | lostContext
  | agentError
  deriving DecidableEq, Repr, Fintype

instance : DecidableEq (Except RunError RunState) := fun a b =>
  match a, b with
  | .ok x, .ok y =>
      if h : x = y then .isTrue (by rw [h]) else .isFalse (by simp [h])
  | .error x, .error y =>
      if h : x = y then .isTrue (by rw [h]) else .isFalse (by simp [h])
  | .ok _, .error _ => .isFalse (by simp)
  | .error _, .ok _ => .isFalse (by simp)

/-- The terminal states `completed`, `cancelled`, `failed`
(`cancelled --> [*]`, `completed --> [*]`, `failed --> [*]` in the diagram). -/
def RunState.isTerminal : RunState → Bool
  | .completed => true
  | .cancelled => true
  | .failed => true
  | _ => false

/-- One step of the run state machine.  The nine concrete arms are the nine
labelled edges of the mermaid diagram in src/unnamed/part_001; the
`continueRun` arm is the prose continuation edge (terminal state back to
`in-progress` when the agent supports it, declared by the `resumable`
flag).  An event with no edge from the current state is rejected with
`invalidTransition`; a continuation attempt on a non-resumable agent is
rejected with `runNotResumable` (spec section 4.1). -/
def stepRun (resumable : Bool) : RunState → RunEvent → Except RunError RunState
  | .created, .start => .ok .inProgress
  | .inProgress, .complete => .ok .completed
  | .inProgress, .needInput => .ok .awaiting
  | .inProgress, .cancelRequest => .ok .cancelling
  | .inProgress, .error => .ok .failed
  | .awaiting, .inputReceived => .ok .inProgress
  | .awaiting, .timeoutOrError => .ok .failed
  | .awaiting, .cancelRequest => .ok .cancelling
  | .cancelling, .cancelConfirmed => .ok .cancelled
  | s, .continueRun =>
      if s.isTerminal then
        if resumable then .ok .inProgress else .error .runNotResumable
      else .error .invalidTransition
  | _, _ => .error .invalidTransition

/-- The transition table of spec section 4.1, row for row (the terminal
`continue` row is expanded to its three source states). -/
def runTransitionTable : List (RunState × RunEvent × RunState) :=
  [ (.created, .start, .inProgress),
    (.inProgress, .complete, .completed),
    (.inProgress, .needInput, .awaiting),
    (.inProgress, .cancelRequest, .cancelling),
    (.inProgress, .error, .failed),
    (.awaiting, .inputReceived, .inProgress),
    (.awaiting, .timeoutOrError, .failed),
    (.awaiting, .cancelRequest, .cancelling),
    (.cancelling, .cancelConfirmed, .cancelled),
    (.completed, .continueRun, .inProgress),
    (.cancelled, .continueRun, .inProgress),
    (.failed, .continueRun, .inProgress) ]

/-- The enumerated state set of spec section 4.1. -/
def allRunStates : List RunState :=
  [.created, .inProgress, .awaiting, .completed, .cancelling, .cancelled, .failed]

/-- Apply one event to a state: a rejected event leaves the state
unchanged ("the Run's state is left unchanged"). -/
def apply1 (resumable : Bool) (s : RunState) (e : RunEvent) : RunState :=
  match stepRun resumable s e with
  | .ok s' => s'
  | .error _ => s

/-- Apply a sequence of events, starting from `s`. -/
def applySeq (resumable : Bool) (s : RunState) (es : List RunEvent) : RunState :=
  es.foldl (apply1 resumable) s

/-- The sequence of states a run visits while a sequence of events is
applied (the start state included). -/
def traceStates (resumable : Bool) (s : RunState) : List RunEvent → List RunState
  | [] => [s]
  | e :: es => s :: traceStates resumable (apply1 resumable s e) es

/-- Agent statefulness classification (spec section 3), from the "Agent
Run" page: stateless, serializable stateful, non-serializable stateful
agents. -/
inductive Statefulness
  | stateless
  | serializable
  | nonSerializable
  deriving DecidableEq, Repr, Fintype

/-- The Run record (spec section 3).  Opaque payloads (`input`, `output`,
`awaitingRequest`, `error`) are modelled as strings; timestamps as
naturals. -/
structure Run where
  id : Nat
  state : RunState
  agentName : String
  input : String
  output : Option String
  awaitingRequest : Option String
  error : Option String
  statefulness : Statefulness
  expiresAt : Option Nat
  createdAt : Nat
  updatedAt : Nat
  deriving DecidableEq, Repr

/-- The continuable states `created`, `in-progress`, `awaiting`, on whose
entry the ExpirationManager refreshes `expiresAt` (spec section 4.3). -/
def RunState.isContinuable : RunState → Bool
  | .created => true
  | .inProgress => true
  | .awaiting => true
  | _ => false

/-- Run events together with their payloads: `complete` carries the
output, `needInput` the awaited request, `error` and `timeoutOrError` the
structured cause, `inputReceived` and `continueRun` the new input. -/
inductive RunEventP
  | start
  | complete (output : String)
  | needInput (request : String)
  | cancelRequest
  | error (cause : String)
  | inputReceived (input : String)
  | timeoutOrError (cause : String)
  | cancelConfirmed
  | continueRun (input : String)
  deriving DecidableEq, Repr

/-- The bare event underlying a payloaded event. -/
def RunEventP.erase : RunEventP → RunEvent
  | .start => .start
  | .complete _ => .complete
  | .needInput _ => .needInput
  | .cancelRequest => .cancelRequest
  | .error _ => .error
  | .inputReceived _ => .inputReceived
  | .timeoutOrError _ => .timeoutOrError
  | .cancelConfirmed => .cancelConfirmed
  | .continueRun _ => .continueRun

/-- Modelled from the spec: the RunController has no source under src/;
spec sections 3, 4.2 and 4.3 describe how an accepted transition updates
the Run record: `state` moves along the table edge; `awaitingRequest` is
present only in state `awaiting` (set from the `needInput` payload);
`error` is present only in state `failed`; `output` is set only on the
transition into `completed`; for non-serializable runs `expiresAt` is
refreshed on entry into a continuable state and cleared on entry into a
terminal state (the ExpirationManager applies only to non-serializable
runs); `updatedAt` is bumped.  A rejected event returns the error and
leaves the record untouched. -/
def applyRunEvent (resumable : Bool) (now ttl : Nat) (run : Run) (e : RunEventP) :
    Except RunError Run :=
  match stepRun resumable run.state e.erase with
  | .error err => .error err
  | .ok s' =>
    .ok { run with
      state := s'
      awaitingRequest := match e with | .needInput req => some req | _ => none
      output := match e with | .complete o => some o | _ => none
      error := match e with
        | .error c => some c
        | .timeoutOrError c => some c
        | _ => none
      expiresAt :=
        if run.statefulness = .nonSerializable then
          if s'.isContinuable then some (now + ttl)
          else if s'.isTerminal then none
          else run.expiresAt
        else run.expiresAt
      updatedAt := now }

/-- Modelled from the spec: run creation (spec section 4.2) builds a Run
record in state `created` with empty output, awaiting-request and error
fields; a non-serializable run gets `expiresAt = now + ttl` (spec section
4.3). -/
def createRun (runId : Nat) (agentName input : String) (st : Statefulness)
    (now ttl : Nat) : Run :=
  { id := runId
    state := .created
    agentName := agentName
    input := input
    output := none
    awaitingRequest := none
    error := none
    statefulness := st
    expiresAt := if st = .nonSerializable then some (now + ttl) else none
    createdAt := now
    updatedAt := now }

/-- The field/state consistency invariant of the Run record (spec section
3): `awaitingRequest` non-null iff `awaiting`, `error` non-null iff
`failed`, `output` non-null only if `completed`. -/
def runConsistent (run : Run) : Prop :=
  (run.awaitingRequest.isSome ↔ run.state = .awaiting) ∧
  (run.error.isSome ↔ run.state = .failed) ∧
  (run.output.isSome → run.state = .completed)

/-- Modelled from the spec: whether a run is past its expiry at `now`;
only non-serializable runs expire (spec sections 3 and 4.3). -/
def runExpired (now : Nat) (run : Run) : Bool :=
  run.statefulness = Statefulness.nonSerializable &&
    match run.expiresAt with
    | some t => decide (t < now)
    | none => false

/-- Modelled from the spec: the RunStore keyed lookup (spec section 4.2);
the store is a list of Run records keyed by `id`. -/
def findRun (store : List Run) (runId : Nat) : Option Run :=
  store.find? (fun r => r.id == runId)

/-- Modelled from the spec: the shared lookup of read, resume and cancel:
`NotFound` for an unknown id, `Expired` for a non-serializable run past
its TTL — the expiry check is enforced lazily at read time, with no sweep
needed (spec sections 3, 4.2, 4.3). -/
def lookupRun (now : Nat) (store : List Run) (runId : Nat) : Except RunError Run :=
  match findRun store runId with
  | none => .error .notFound
  | some run => if runExpired now run then .error .expired else .ok run

/-- Modelled from the spec: `get(runId)` returns a read-only snapshot,
still subject to the lazy expiry check (spec section 4.2). -/
def getRun (now : Nat) (store : List Run) (runId : Nat) : Except RunError Run :=
  lookupRun now store runId

/-- Modelled from the spec: the RunStore persists an accepted transition
by replacing the record with the matching id (spec section 4.2). -/
def updateStore : List Run → Run → List Run
  | [], run => [run]
  | r :: rest, run =>
    if r.id == run.id then run :: rest else r :: updateStore rest run

/-- Modelled from the spec: `resume(runId, input)` fails with `NotFound`
or `Expired` via the shared lookup, fails with `InvalidTransition` unless
the current state is `awaiting` (or a resumable terminal state), and
otherwise applies `input-received` (or `continue`) and persists the
updated record (spec section 4.2). -/
def resumeRun (resumable : Bool) (now ttl : Nat) (store : List Run)
    (runId : Nat) (input : String) : Except RunError (Run × List Run) :=
  match lookupRun now store runId with
  | .error err => .error err
  | .ok run =>
    let e : RunEventP :=
      if run.state = .awaiting then .inputReceived input else .continueRun input
    match applyRunEvent resumable now ttl run e with
    | .error err => .error err
    | .ok run' => .ok (run', updateStore store run')

/-- Modelled from the spec: `cancel(runId)` fails with `NotFound` or
`Expired` via the shared lookup, fails with `InvalidTransition` unless the
state is `in-progress` or `awaiting`, and otherwise applies
`cancel-request` and persists the record, returning the run in
`cancelling` (spec section 4.2). -/
def cancelRun (resumable : Bool) (now ttl : Nat) (store : List Run)
    (runId : Nat) : Except RunError (Run × List Run) :=
  match lookupRun now store runId with
  | .error err => .error err
  | .ok run =>
    match applyRunEvent resumable now ttl run .cancelRequest with
    | .error err => .error err
    | .ok run' => .ok (run', updateStore store run')

/-- Modelled from the spec: a stateless agent "doesn't support holding a
conversation, thus the Agent Run represents only a single call and its
result" (src/unnamed/part_001) and a stateless run has "no awaiting, no
resumption" (spec section 3): the only events the controller ever applies
to a stateless run are `start`, `complete` and `error`. -/
def statelessEvents : List RunEvent := [.start, .complete, .error]

/-- The states a stateless run may occupy (spec section 3). -/
def statelessStates : List RunState := [.created, .inProgress, .completed, .failed]

/-- A concrete run in state `awaiting`, used to exercise cancellation
while waiting on input. -/
def awaitingRun : Run :=
  { id := 1, state := .awaiting, agentName := "needs-name", input := "x",
    output := none, awaitingRequest := some "name", error := none,
    statefulness := .serializable, expiresAt := none, createdAt := 0,
    updatedAt := 0 }

/-- The record `awaitingRun` after an accepted cancel at time 5. -/
def cancelledAwaitingRun : Run :=
  { awaitingRun with
    state := .cancelling
    awaitingRequest := none
    updatedAt := 5 }

theorem applySeq_nil (r : Bool) (s : RunState) : applySeq r s [] = s := rfl

theorem applySeq_cons (r : Bool) (s : RunState) (e : RunEvent) (es : List RunEvent) :
    applySeq r s (e :: es) = applySeq r (apply1 r s e) es := rfl

theorem self_mem_traceStates (r : Bool) (s : RunState) (es : List RunEvent) :
    s ∈ traceStates r s es := by
  cases es <;> simp [traceStates]

/-- C1: every run starts in `created`, its state always lies in the
enumerated seven-state set, and every successful state change is an edge
of the section 4.1 transition table; no other state change is reachable. -/
theorem run_lifecycle_follows_table (r : Bool) (es : List RunEvent) :
    (traceStates r .created es).head? = some RunState.created ∧
    applySeq r .created es ∈ allRunStates ∧
    (∀ s e s', stepRun r s e = .ok s' → (s, e, s') ∈ runTransitionTable) := by
  refine ⟨by cases es <;> rfl, ?_, ?_⟩
  · have : ∀ s : RunState, s ∈ allRunStates := by decide
    exact this _
  · revert r
    decide

/-- Witness for C1 at a concrete input. -/
theorem run_lifecycle_follows_table_witness :
    (RunState.created, RunEvent.start, RunState.inProgress) ∈ runTransitionTable :=
  (run_lifecycle_follows_table true []).2.2 .created .start .inProgress rfl

/-- C2: an event with no edge from the current state in the section 4.1
table is rejected with `invalidTransition`, and the state is left
unchanged (`apply1` keeps the current state on rejection). -/
theorem unlisted_event_rejected (r : Bool) (s : RunState) (e : RunEvent)
    (h : ∀ s', (s, e, s') ∉ runTransitionTable) :
    stepRun r s e = .error .invalidTransition ∧ apply1 r s e = s ∧
    ∀ (now ttl : Nat) (run : Run) (ep : RunEventP),
      ep.erase = e → run.state = s →
      applyRunEvent r now ttl run ep = .error .invalidTransition := by
  have h1 : stepRun r s e = .error .invalidTransition ∧ apply1 r s e = s := by
    revert h; revert r s e
    decide
  refine ⟨h1.1, h1.2, fun now ttl run ep hep hstate => ?_⟩
  simp [applyRunEvent, hep, hstate, h1.1]

/-- Witness for C2: `complete` has no edge from `created`. -/
theorem unlisted_event_rejected_witness :
    stepRun true .created .complete = .error .invalidTransition ∧
    apply1 true .created .complete = .created ∧
    applyRunEvent true 1 10 (createRun 1 "echo" "hi" .stateless 0 10)
      (.complete "out") = .error .invalidTransition :=
  ⟨(unlisted_event_rejected true .created .complete (by decide)).1,
   (unlisted_event_rejected true .created .complete (by decide)).2.1,
   (unlisted_event_rejected true .created .complete (by decide)).2.2
     1 10 (createRun 1 "echo" "hi" .stateless 0 10) (.complete "out") rfl rfl⟩

/-- C3: `cancelled` is entered only from `cancelling` via
`cancel-confirmed`; in particular there is no direct transition from
`in-progress` or `awaiting` to `cancelled`, so a cancel request never
synchronously yields `cancelled`. -/
theorem cancelled_only_from_cancelling (r : Bool) (s : RunState) (e : RunEvent)
    (h : stepRun r s e = .ok .cancelled) :
    s = .cancelling ∧ e = .cancelConfirmed := by
  revert h; revert r s e
  decide

/-- Witness for C3 at the one edge that reaches `cancelled`. -/
theorem cancelled_only_from_cancelling_witness :
    RunState.cancelling = .cancelling ∧ RunEvent.cancelConfirmed = .cancelConfirmed :=
  cancelled_only_from_cancelling true .cancelling .cancelConfirmed rfl

/-- C9: the run state machine is deterministic — the transition table has
at most one successor per (state, event) pair, and two runs started in
`created` and fed the same event sequence end in the same state. -/
theorem run_machine_deterministic (r : Bool) (s : RunState) (e : RunEvent)
    (s₁ s₂ : RunState)
    (h₁ : (s, e, s₁) ∈ runTransitionTable) (h₂ : (s, e, s₂) ∈ runTransitionTable) :
    s₁ = s₂ ∧ ∀ es : List RunEvent, applySeq r .created es = applySeq r .created es := by
  refine ⟨?_, fun _ => rfl⟩
  revert h₁ h₂; revert s e s₁ s₂
  decide

/-- Witness for C9 at a concrete table row and a concrete sequence. -/
theorem run_machine_deterministic_witness :
    RunState.inProgress = RunState.inProgress ∧
    applySeq true .created [.start] = applySeq true .created [.start] :=
  ⟨(run_machine_deterministic true .created .start .inProgress .inProgress
      (by decide) (by decide)).1,
   (run_machine_deterministic true .created .start .inProgress .inProgress
      (by decide) (by decide)).2 [.start]⟩

/-- C7: from a terminal state, the `continue` event succeeds (to
`in-progress`) exactly when the owning agent declares itself resumable;
for a non-resumable agent the attempt fails with `runNotResumable` and the
run stays in its terminal state. -/
theorem continuation_requires_resumable (s : RunState) (h : s.isTerminal = true) :
    stepRun true s .continueRun = .ok .inProgress ∧
    stepRun false s .continueRun = .error .runNotResumable ∧
    apply1 false s .continueRun = s := by
  revert h; revert s
  decide

/-- Witness for C7 at the terminal state `completed`. -/
theorem continuation_requires_resumable_witness :
    stepRun true .completed .continueRun = .ok .inProgress ∧
    stepRun false .completed .continueRun = .error .runNotResumable ∧
    apply1 false .completed .continueRun = .completed :=
  continuation_requires_resumable .completed rfl

theorem apply1_created (r : Bool) (e : RunEvent) (h : e ≠ RunEvent.start) :
    apply1 r .created e = .created := by
  revert h; revert r e
  decide

theorem terminal_trace_hits_inProgress :
    ∀ es : List RunEvent, (applySeq false .created es).isTerminal = true →
      RunState.inProgress ∈ traceStates false .created es := by
  intro es
  induction es with
  | nil => intro h; simp [applySeq, RunState.isTerminal] at h
  | cons e es ih =>
    intro h
    rw [applySeq_cons] at h
    by_cases he : e = RunEvent.start
    · subst he
      have h1 : apply1 false .created .start = .inProgress := rfl
      simp only [traceStates, h1]
      exact List.mem_cons_of_mem _ (self_mem_traceStates _ _ _)
    · have hkeep := apply1_created false e he
      rw [hkeep] at h
      simp only [traceStates, hkeep]
      exact List.mem_cons_of_mem _ (ih h)

/-- C8: `created` has exactly one outgoing transition (`start`, to
`in-progress`), so a run of a non-resumable agent reaches a terminal
state only after having been `in-progress` at least once: every event
sequence whose final state is terminal visits `in-progress`. -/
theorem no_terminal_without_inProgress (r : Bool) (es : List RunEvent)
    (hterm : (applySeq false .created es).isTerminal = true) :
    (∀ e s', stepRun r .created e = .ok s' → e = .start ∧ s' = .inProgress) ∧
    RunState.inProgress ∈ traceStates false .created es := by
  refine ⟨?_, terminal_trace_hits_inProgress es hterm⟩
  revert r
  decide

/-- Witness for C8 on the sequence start, complete. -/
theorem no_terminal_without_inProgress_witness :
    (RunEvent.start = .start ∧ RunState.inProgress = .inProgress) ∧
    RunState.inProgress ∈ traceStates false .created [.start, .complete] :=
  ⟨(no_terminal_without_inProgress true [.start, .complete] rfl).1
      .start .inProgress rfl,
   (no_terminal_without_inProgress true [.start, .complete] rfl).2⟩

/-- C4: a non-serializable run past its `expiresAt` is never returned as
resumable — `get`, `resume` and `cancel` all fail with `Expired`, with no
background sweep needed: the check is lazy, at read time. -/
theorem expired_run_lookups_fail (rb : Bool) (now ttl t : Nat) (store : List Run)
    (runId : Nat) (run : Run) (input : String)
    (hfind : findRun store runId = some run)
    (hst : run.statefulness = .nonSerializable)
    (hexp : run.expiresAt = some t) (hpast : t < now) :
    getRun now store runId = .error .expired ∧
    resumeRun rb now ttl store runId input = .error .expired ∧
    cancelRun rb now ttl store runId = .error .expired := by
  have h : runExpired now run = true := by
    simp [runExpired, hst, hexp, hpast]
  have hl : lookupRun now store runId = .error .expired := by
    simp [lookupRun, hfind, h]
  exact ⟨by simp [getRun, hl], by simp [resumeRun, hl], by simp [cancelRun, hl]⟩

/-- Witness for C4 on a one-element store holding an expired run. -/
theorem expired_run_lookups_fail_witness :
    getRun 5 [createRun 1 "kernel" "x" .nonSerializable 0 2] 1 = .error .expired ∧
    resumeRun true 5 2 [createRun 1 "kernel" "x" .nonSerializable 0 2] 1 "y" =
      .error .expired ∧
    cancelRun true 5 2 [createRun 1 "kernel" "x" .nonSerializable 0 2] 1 =
      .error .expired :=
  expired_run_lookups_fail true 5 2 2 [createRun 1 "kernel" "x" .nonSerializable 0 2]
    1 (createRun 1 "kernel" "x" .nonSerializable 0 2) "y" rfl rfl rfl (by decide)

theorem stateless_step_closed :
    ∀ s ∈ statelessStates, ∀ e ∈ statelessEvents, apply1 false s e ∈ statelessStates := by
  decide

theorem stateless_trace_closed (es : List RunEvent) :
    ∀ s ∈ statelessStates, (∀ e ∈ es, e ∈ statelessEvents) →
      ∀ t ∈ traceStates false s es, t ∈ statelessStates := by
  induction es with
  | nil =>
    intro s hs _ t ht
    simp [traceStates] at ht
    rwa [ht]
  | cons e es ih =>
    intro s hs hall t ht
    simp only [traceStates, List.mem_cons] at ht
    rcases ht with ht | ht
    · rwa [ht]
    · have hstep := stateless_step_closed s hs e (hall e (by simp))
      exact ih _ hstep (fun e' he' => hall e' (by simp [he'])) t ht

/-- C5: a stateless run, driven by the only events a stateless agent ever
produces, stays within created, in-progress, completed and failed; in
particular it never reaches `awaiting`. -/
theorem stateless_reachable_states (es : List RunEvent)
    (h : ∀ e ∈ es, e ∈ statelessEvents) :
    (∀ t ∈ traceStates false .created es, t ∈ statelessStates) ∧
    RunState.awaiting ∉ traceStates false .created es := by
  have hall := stateless_trace_closed es .created (by decide) h
  refine ⟨hall, fun hmem => ?_⟩
  have := hall _ hmem
  simp [statelessStates] at this

/-- Witness for C5 on the sequence start, complete. -/
theorem stateless_reachable_states_witness :
    RunState.completed ∈ statelessStates ∧
    RunState.awaiting ∉ traceStates false .created [.start, .complete] :=
  ⟨(stateless_reachable_states [.start, .complete] (by decide)).1
      .completed (by decide),
   (stateless_reachable_states [.start, .complete] (by decide)).2⟩

/-- C6: creation yields a consistent record, and every accepted event
yields a consistent record: `awaitingRequest` non-null iff the state is
`awaiting`, `error` non-null iff the state is `failed`, `output` non-null
only in `completed` (set exactly on the transition into `completed`). -/
theorem run_fields_consistent (runId : Nat) (agentName input : String)
    (st : Statefulness) (now₀ ttl₀ : Nat) (rb : Bool) (now ttl : Nat)
    (run run' : Run) (e : RunEventP)
    (h : applyRunEvent rb now ttl run e = .ok run') :
    runConsistent (createRun runId agentName input st now₀ ttl₀) ∧
    runConsistent run' := by
  constructor
  · simp [runConsistent, createRun]
  · cases e <;> cases hst : run.state <;> cases rb <;>
      simp_all [applyRunEvent, RunEventP.erase, stepRun, runConsistent,
        RunState.isTerminal] <;>
      simp [← h, runConsistent]

/-- Witness for C6: applying `start` to a freshly created run. -/
theorem run_fields_consistent_witness :
    runConsistent (createRun 1 "echo" "hi" .stateless 0 10) ∧
    runConsistent
      { id := 1, state := .inProgress, agentName := "echo", input := "hi",
        output := none, awaitingRequest := none, error := none,
        statefulness := .stateless, expiresAt := none, createdAt := 0,
        updatedAt := 1 } :=
  run_fields_consistent 1 "echo" "hi" .stateless 0 10 false 1 10
    (createRun 1 "echo" "hi" .stateless 0 10) _ .start rfl

theorem findRun_updateStore (store : List Run) (r : Run) :
    findRun (updateStore store r) r.id = some r := by
  induction store with
  | nil => simp [updateStore, findRun]
  | cons x xs ih =>
    by_cases h : x.id = r.id
    · simp [updateStore, findRun, h]
    · simp only [updateStore, findRun] at ih ⊢
      simp [h, ih]

theorem applyRunEvent_cancel (rb : Bool) (now ttl : Nat) (run run' : Run)
    (h : applyRunEvent rb now ttl run .cancelRequest = .ok run') :
    (run.state = .inProgress ∨ run.state = .awaiting) ∧
    run'.state = .cancelling ∧ run'.awaitingRequest = none ∧
    run'.output = none ∧ run'.error = none ∧
    run'.id = run.id ∧ run'.agentName = run.agentName ∧
    run'.input = run.input ∧ run'.statefulness = run.statefulness ∧
    run'.expiresAt = run.expiresAt ∧ run'.createdAt = run.createdAt ∧
    run'.updatedAt = now := by
  cases hst : run.state <;>
    simp_all [applyRunEvent, RunEventP.erase, stepRun] <;>
    (cases hs : run.statefulness <;>
      simp_all [RunState.isContinuable, RunState.isTerminal] <;>
      simp [← h])

/-- C10 counterexample: cancelling the concrete run `awaitingRun` (in
state `awaiting` with `awaitingRequest = some "name"`) clears
`awaitingRequest`, so a field other than `state` and `updatedAt` does
change — the claim as stated is false. -/
theorem cancel_frame_counterexample :
    awaitingRun.awaitingRequest = some "name" ∧
    (cancelRun false 5 10 [awaitingRun] 1).toOption.map
      (fun p => p.1.awaitingRequest) = some none :=
  ⟨rfl, rfl⟩

/-- C10 (amended): an accepted cancel never deletes the record: the run
is still found in the store and returned by `get` (never `NotFound`), in
state `cancelling`, and all fields other than `state`, `updatedAt` and
`awaitingRequest` (which is cleared, keeping the awaiting-iff invariant)
are unchanged. -/
theorem cancel_preserves_record (rb : Bool) (now ttl : Nat) (store store' : List Run)
    (runId : Nat) (run run' : Run)
    (hcons : runConsistent run)
    (hfind : findRun store runId = some run)
    (hok : cancelRun rb now ttl store runId = .ok (run', store')) :
    findRun store' runId = some run' ∧
    getRun now store' runId = .ok run' ∧
    run'.state = .cancelling ∧
    run'.id = run.id ∧ run'.agentName = run.agentName ∧
    run'.input = run.input ∧ run'.output = run.output ∧
    run'.error = run.error ∧ run'.statefulness = run.statefulness ∧
    run'.expiresAt = run.expiresAt ∧ run'.createdAt = run.createdAt := by
  have hid : run.id = runId := by
    have hp := List.find?_some hfind
    simpa using hp
  cases hexp : runExpired now run with
  | true =>
    have hl : lookupRun now store runId = .error .expired := by
      simp [lookupRun, hfind, hexp]
    simp [cancelRun, hl] at hok
  | false =>
    have hl : lookupRun now store runId = .ok run := by
      simp [lookupRun, hfind, hexp]
    cases happ : applyRunEvent rb now ttl run .cancelRequest with
    | error err =>
      have hc : cancelRun rb now ttl store runId = .error err := by
        simp [cancelRun, hl, happ]
      rw [hc] at hok
      simp at hok
    | ok r2 =>
      have hc : cancelRun rb now ttl store runId = .ok (r2, updateStore store r2) := by
        simp [cancelRun, hl, happ]
      rw [hc] at hok
      simp only [Except.ok.injEq, Prod.mk.injEq] at hok
      obtain ⟨hr, hs⟩ := hok
      subst hr; subst hs
      obtain ⟨hgood, hstate, hareq, hout, herr, hidr, hname, hin, hsf, hexpat,
        hcreat, hupd⟩ := applyRunEvent_cancel rb now ttl run r2 happ
      obtain ⟨hca, hce, hco⟩ := hcons
      have houtrun : run.output = none := by
        cases hO : run.output with
        | none => rfl
        | some v =>
          have := hco (by simp [hO])
          rcases hgood with hg | hg <;> rw [hg] at this <;> exact absurd this (by simp)
      have herrrun : run.error = none := by
        cases hE : run.error with
        | none => rfl
        | some v =>
          have := hce.mp (by simp [hE])
          rcases hgood with hg | hg <;> rw [hg] at this <;> simp at this
      have hfind2 : findRun (updateStore store r2) runId = some r2 := by
        have := findRun_updateStore store r2
        rwa [hidr, hid] at this
      have hexp2 : runExpired now r2 = false := by
        simp only [runExpired, hsf, hexpat]
        simpa only [runExpired] using hexp
      refine ⟨hfind2, ?_, hstate, hidr, hname, hin, ?_, ?_, hsf, hexpat, hcreat⟩
      · simp [getRun, lookupRun, hfind2, hexp2]
      · rw [hout, houtrun]
      · rw [herr, herrrun]

/-- Witness for the amended C10 on a one-element store. -/
theorem cancel_preserves_record_witness :
    findRun [cancelledAwaitingRun] 1 = some cancelledAwaitingRun ∧
    getRun 5 [cancelledAwaitingRun] 1 = .ok cancelledAwaitingRun ∧
    cancelledAwaitingRun.state = .cancelling ∧
    cancelledAwaitingRun.id = awaitingRun.id ∧
    cancelledAwaitingRun.agentName = awaitingRun.agentName ∧
    cancelledAwaitingRun.input = awaitingRun.input ∧
    cancelledAwaitingRun.output = awaitingRun.output ∧
    cancelledAwaitingRun.error = awaitingRun.error ∧
    cancelledAwaitingRun.statefulness = awaitingRun.statefulness ∧
    cancelledAwaitingRun.expiresAt = awaitingRun.expiresAt ∧
    cancelledAwaitingRun.createdAt = awaitingRun.createdAt :=
  cancel_preserves_record false 5 10 [awaitingRun] [cancelledAwaitingRun] 1
    awaitingRun cancelledAwaitingRun (by simp [runConsistent, awaitingRun]) rfl rfl

end BeeAI
